import Mathlib

/-!
Shallow embedding of `src/app/midipi/wires.py` (a small MIDI router).

The Python program manipulates `rtmidi` port objects and mutable
`MidiDevice` / `Station` objects.  We embed it as pure state passing:

* `World` is the heap: the list of all allocated `MidiDevice` records
  (object identity = index into that list, which models Python references
  and aliasing), a counter handing out fresh connection ids (each
  `rtmidi.MidiIn()` / `rtmidi.MidiOut()` that gets opened receives a fresh
  id), and a trace of driver-level events (port opens/closes and sends).
* Diagnostics printed to `stderr` are returned as a `List String`.
* Exceptions are modelled by an `Option Err` component of results; Python
  leaves the mutations performed before the raise in place, so failing
  operations still return the mutated state.
* `MidiEnv` models what the `rtmidi` driver reports: the ordered lists of
  input and output port names returned by `get_ports()`.
-/

/-- Channel specifications: the Python code uses either an `AllChannels`
instance (whose `__eq__` is constantly `True`) or a plain `int` for the
channel slot of a wiring rule. -/
inductive ChannelSpec where
  | all_channels : ChannelSpec
  | channel (n : Nat) : ChannelSpec
  deriving DecidableEq

/-- The Python comparison `channel == x` for a channel spec `channel`:
`AllChannels.__eq__` (wires.py line 17) returns `True` for anything, and an
`int` compares by equality. -/
def chan_eq : ChannelSpec → Nat → Bool
  | .all_channels, _ => true
  | .channel n, m => n == m

/-- Device-name specifications: a plain Python `str` (substring match) or an
`ExactMatch` object (wires.py lines 21-29). -/
inductive NameSpec where
  | str (s : String)
  | exact (s : String)
  deriving DecidableEq

/-- Executable substring containment on character lists: `occursIn n h` is
Python's `n in h` for strings (`n` occurs contiguously inside `h`). -/
def occursIn (needle : List Char) : List Char → Bool
  | [] => needle.isEmpty
  | c :: rest => needle.isPrefixOf (c :: rest) || occursIn needle rest

/-- Lower-case a string character by character (Python `str.lower`). -/
def lowerChars (s : String) : List Char := s.toList.map Char.toLower

/-- `MidiDevice.matches` (wires.py lines 40-44): a plain string spec is
matched case-insensitively as a substring of the device name; any other
spec is compared with `==`, which for `ExactMatch` is case-sensitive
equality of the full name (wires.py lines 25-26). -/
def matchesSpec (user_spec : NameSpec) (full_name : String) : Bool :=
  match user_spec with
  | .str s => occursIn (lowerChars s) (lowerChars full_name)
  | .exact s => s == full_name

/-- Python `str(spec)`: a plain string prints as itself, `ExactMatch.__str__`
is `"exact({})".format(repr(self.name))` (wires.py lines 28-29). -/
def specStr : NameSpec → String
  | .str s => s
  | .exact s => "exact(\x27" ++ s ++ "\x27)"

/-- One `MidiDevice` object (wires.py lines 32-38).  `input` / `output` hold
the connection id of the currently open `rtmidi` connection, if any;
`forwards` is the list of `(output device, channel)` routes, referencing the
destination device by heap id. -/
structure MidiDevice where
  full_name : String
  port : Nat
  input : Option Nat
  output : Option Nat
  forwards : List (Nat × ChannelSpec)
  deriving DecidableEq

/-- Default device record used for out-of-range heap reads (a Python program
can never produce such a read; every id we store is a live reference). -/
def dDefault : MidiDevice := ⟨"", 0, none, none, []⟩

/-- Driver-level events, in the order they happen. -/
inductive Event where
  | openIn (conn : Nat) (port : Nat)
  | openOut (conn : Nat) (port : Nat)
  | closeIn (conn : Nat)
  | closeOut (conn : Nat)
  | send (conn : Nat) (msg : List Nat)
  deriving DecidableEq

/-- The heap plus the driver event trace. -/
structure World where
  devices : List MidiDevice
  nextConn : Nat
  trace : List Event
  deriving DecidableEq

/-- Read a device from the heap. -/
def devAt (w : World) (i : Nat) : MidiDevice := w.devices.getD i dDefault

/-- The output connection of device `i`. -/
def devOut (w : World) (i : Nat) : Option Nat := (devAt w i).output

/-- Write a device back to the heap. -/
def updDev (w : World) (i : Nat) (dev : MidiDevice) : World :=
  { w with devices := w.devices.set i dev }

/-- What the `rtmidi` driver currently reports: `get_ports()` for inputs and
for outputs, in driver order. -/
structure MidiEnv where
  input_ports : List String
  output_ports : List String
  deriving DecidableEq

/-- A wiring rule `(input_spec, channel, output_spec)` (wires.py line 124). -/
abbrev WiringRule := NameSpec × ChannelSpec × NameSpec

/-- A wiring: the ordered list of rules. -/
abbrev Wiring := List WiringRule

/-- The `Station` object (wires.py lines 85-89): heap ids of the active input
and output devices, and the remembered wiring. -/
structure Station where
  input_devices : List Nat
  output_devices : List Nat
  last_wiring : Option Wiring
  deriving DecidableEq

/-- Exceptions raised by the Python code. -/
inductive Err where
  | ambiguousSpec (msg : String)
  | noWiring
  | notOpen
  | indexError
  deriving DecidableEq

/-- Constants from `rtmidi.midiconstants`. -/
def CONTROL_CHANGE : Nat := 176

/-- All-Sound-Off controller number. -/
def ALL_SOUND_OFF : Nat := 120

/-- All-Notes-Off controller number. -/
def ALL_NOTES_OFF : Nat := 123

/-- Reset-All-Controllers controller number. -/
def RESET_ALL_CONTROLLERS : Nat := 121

/-- The message `[CONTROL_CHANGE, ALL_SOUND_OFF, 0]`. -/
def soundOffMsg : List Nat := [CONTROL_CHANGE, ALL_SOUND_OFF, 0]

/-- The message `[CONTROL_CHANGE, ALL_NOTES_OFF, 0]`. -/
def notesOffMsg : List Nat := [CONTROL_CHANGE, ALL_NOTES_OFF, 0]

/-- The message `[CONTROL_CHANGE, RESET_ALL_CONTROLLERS, 0]`. -/
def resetCtrlMsg : List Nat := [CONTROL_CHANGE, RESET_ALL_CONTROLLERS, 0]

/-- `MidiDevice.prepare_for_output` (wires.py lines 46-49): open a fresh
output connection on the device's port only when none is open yet. -/
def prepareForOutput (w : World) (o : Nat) : World :=
  match (devAt w o).output with
  | some _ => w
  | none =>
    { updDev w o { devAt w o with output := some w.nextConn } with
      nextConn := w.nextConn + 1
      trace := w.trace ++ [.openOut w.nextConn (devAt w o).port] }

/-- `MidiDevice.forward_messages` (wires.py lines 54-61): prepare the
destination's output, then unconditionally allocate a fresh `rtmidi.MidiIn`,
open it on this device's port, install the receive callback on it (the
`openIn` event), and append `(output, channel)` to `forwards`. -/
def forwardMessages (w : World) (d o : Nat) (ch : ChannelSpec) : World :=
  let w1 := prepareForOutput w o
  let w2 := { updDev w1 d { devAt w1 d with input := some w1.nextConn } with
              nextConn := w1.nextConn + 1
              trace := w1.trace ++ [.openIn w1.nextConn (devAt w1 d).port] }
  updDev w2 d { devAt w2 d with forwards := (devAt w2 d).forwards ++ [(o, ch)] }

/-- Loop body of `MidiDevice.callback` (wires.py lines 67-70): for each
registered `(output, channel)` route, if `channel == midi_channel + 1`,
send the whole message through the destination's output connection. -/
def cbLoop (w : World) (msg : List Nat) (nib : Nat) :
    List (Nat × ChannelSpec) → World × Option Err
  | [] => (w, none)
  | (o, ch) :: rest =>
    if chan_eq ch (nib + 1) then
      match devOut w o with
      | none => (w, some .notOpen)
      | some c => cbLoop { w with trace := w.trace ++ [.send c msg] } msg nib rest
    else cbLoop w msg nib rest

/-- `MidiDevice.callback` (wires.py lines 63-70): take the low 4 bits of the
first byte as the channel nibble and run the forwarding loop over the
device's routes. -/
def callback (w : World) (d : Nat) (msg : List Nat) : World × Option Err :=
  match msg with
  | [] => (w, some .indexError)
  | b :: _ => cbLoop w msg (b &&& 15) (devAt w d).forwards

/-- Input half of `MidiDevice.close` (wires.py lines 73-75): close and clear
the input connection when one is open. -/
def closeInStep (w : World) (e : Nat) : World :=
  match (devAt w e).input with
  | none => w
  | some ci =>
    { updDev w e { devAt w e with input := none } with
      trace := w.trace ++ [.closeIn ci] }

/-- Output half of `MidiDevice.close` (wires.py lines 77-82): when an output
connection is open, send the three silence messages, then close and clear
it. -/
def closeOutStep (w : World) (e : Nat) : World :=
  match (devAt w e).output with
  | none => w
  | some co =>
    { updDev w e { devAt w e with output := none } with
      trace := w.trace ++
        [.send co soundOffMsg, .send co notesOffMsg, .send co resetCtrlMsg,
         .closeOut co] }

/-- `MidiDevice.close` (wires.py lines 72-82). -/
def deviceClose (w : World) (e : Nat) : World := closeOutStep (closeInStep w e) e

/-- Close a list of devices in order (the loops of `Station.reset`). -/
def closeAll (w : World) (ids : List Nat) : World := ids.foldl deviceClose w

/-- `Station.reset` (wires.py lines 91-98): close every active input device,
then every active output device, and clear both active lists. -/
def Station.reset (w : World) (st : Station) : World × Station :=
  let w1 := closeAll w st.input_devices
  let w2 := closeAll w1 st.output_devices
  (w2, { st with input_devices := [], output_devices := [] })

/-- Loop of `Station.panic` (wires.py lines 103-108): for each discoverable
output port in order, open it, send the three silence messages, close it. -/
def panicGo (w : World) (portnum : Nat) : List String → World
  | [] => w
  | _ :: rest =>
    let c := w.nextConn
    panicGo
      { w with
        nextConn := c + 1
        trace := w.trace ++
          [.openOut c portnum, .send c soundOffMsg, .send c notesOffMsg,
           .send c resetCtrlMsg, .closeOut c] }
      (portnum + 1) rest

/-- `Station.panic` (wires.py lines 100-108): enumerate every currently
discoverable output port and silence each transiently; the station object is
not touched. -/
def Station.panic (env : MidiEnv) (w : World) (st : Station) : World × Station :=
  (panicGo w 0 env.output_ports, st)

/-- Loop of `Station.__find_matching_device` (wires.py lines 170-180):
`device` is the first match found so far; a second match raises
`Exception("More than one devices match " + str(spec))`. -/
def findLoop (w : World) (spec : NameSpec) (device : Option Nat) :
    List Nat → Except Err (Option Nat)
  | [] => .ok device
  | i :: rest =>
    if matchesSpec spec (devAt w i).full_name then
      match device with
      | none => findLoop w spec (some i) rest
      | some _ => .error (.ambiguousSpec ("More than one devices match " ++ specStr spec))
    else findLoop w spec device rest

/-- `Station.__find_matching_device` (wires.py lines 170-180). -/
def findMatchingDevice (w : World) (spec : NameSpec) (ids : List Nat) :
    Except Err (Option Nat) :=
  findLoop w spec none ids

/-- First loop of `Station.wire` (wires.py lines 124-144): resolve each rule,
emitting the exact stderr diagnostics of the source and skipping rules with
an unresolved side; an ambiguous spec raises out of the loop.  Returns the
diagnostics together with the collected `wire_list`. -/
def matchRules (w : World) (inIds outIds : List Nat) :
    List WiringRule → List String × Except Err (List (Nat × Nat × ChannelSpec))
  | [] => ([], .ok [])
  | (input_spec, chanspec, output_spec) :: rest =>
    match findMatchingDevice w input_spec inIds with
    | .error e => ([], .error e)
    | .ok idev =>
      match findMatchingDevice w output_spec outIds with
      | .error e => ([], .error e)
      | .ok odev =>
        let d1 : List String :=
          if idev.isNone then
            ["Can\x27t find an input device matching: " ++ specStr input_spec]
          else []
        let d2 : List String :=
          if odev.isNone then
            ["Can\x27t find an output device matching output: " ++ specStr output_spec]
          else []
        match idev, odev with
        | some i, some o =>
          let p := matchRules w inIds outIds rest
          (d1 ++ d2 ++ p.1, p.2.map (fun l => (i, o, chanspec) :: l))
        | _, _ =>
          let p := matchRules w inIds outIds rest
          (d1 ++ d2 ++ ["Skipping"] ++ p.1, p.2)

/-- Second loop of `Station.wire` (wires.py lines 146-149): append the
resolved devices to the active lists and register the forward route. -/
def registerRoutes (w : World) (st : Station) :
    List (Nat × Nat × ChannelSpec) → World × Station
  | [] => (w, st)
  | (i, o, ch) :: rest =>
    let st1 := { st with
                 input_devices := st.input_devices ++ [i]
                 output_devices := st.output_devices ++ [o] }
    registerRoutes (forwardMessages w i o ch) st1 rest

/-- `Station.__discover_devices` (wires.py lines 165-168): build one fresh
`MidiDevice` per reported port, numbering ports from `portnum`; returns the
new world and the heap ids of the created devices. -/
def discoverFrom (w : World) (portnum : Nat) : List String → World × List Nat
  | [] => (w, [])
  | n :: rest =>
    let i := w.devices.length
    let w1 := { w with devices := w.devices ++ [⟨n, portnum, none, none, []⟩] }
    let p := discoverFrom w1 (portnum + 1) rest
    (p.1, i :: p.2)

/-- Discovery of a port list, starting at port 0. -/
def discover (w : World) (names : List String) : World × List Nat :=
  discoverFrom w 0 names

/-- Result of `Station.wire` / `Station.rewire`: the final heap/trace, the
final station object, the stderr diagnostics, and the propagated exception
when one was raised. -/
structure WireResult where
  world : World
  station : Station
  diags : List String
  err : Option Err
  deriving DecidableEq

/-- `Station.wire` (wires.py lines 117-149): record the wiring as
`last_wiring` first, discover inputs then outputs, resolve all rules, and
only then register the collected routes.  An `AmbiguousSpec` raised during
resolution propagates with no route registered. -/
def Station.wire (env : MidiEnv) (w : World) (st : Station) (wiring : Wiring) :
    WireResult :=
  let st1 := { st with last_wiring := some wiring }
  let pIn := discover w env.input_ports
  let pOut := discover pIn.1 env.output_ports
  let mr := matchRules pOut.1 pIn.2 pOut.2 wiring
  match mr.2 with
  | .error e => ⟨pOut.1, st1, mr.1, some e⟩
  | .ok wireList =>
    let p := registerRoutes pOut.1 st1 wireList
    ⟨p.1, p.2, mr.1, none⟩

/-- `Station.rewire` (wires.py lines 110-115): the `wiring` parameter is dead;
raise `ValueError("No wiring set")` when no wiring was ever recorded,
otherwise reset and re-wire with the remembered wiring. -/
def Station.rewire (env : MidiEnv) (w : World) (st : Station) (arg : Wiring) :
    WireResult :=
  match st.last_wiring with
  | none => ⟨w, st, [], some .noWiring⟩
  | some lw =>
    let p := Station.reset w st
    Station.wire env p.1 p.2 lw

/-- Spec-side channel predicate of the specification: `AnyChannel` matches
every nibble; `Channel(n)` matches nibble `c` iff `n = c + 1`. -/
def nibbleMatch : ChannelSpec → Nat → Bool
  | .all_channels, _ => true
  | .channel n, c => n == c + 1

/-- Number of names in a candidate list matched by a spec. -/
def countMatches (spec : NameSpec) (names : List String) : Nat :=
  (names.filter (fun n => matchesSpec spec n)).length

/-- The rules of a wiring that resolve uniquely on both sides against the
given port lists. -/
def goodRules (env : MidiEnv) (wiring : Wiring) : Wiring :=
  wiring.filter
    (fun r => countMatches r.1 env.input_ports == 1 &&
              countMatches r.2.2 env.output_ports == 1)

/-- The silence-and-close block emitted for output connection `c`. -/
def silenceBlock (c : Nat) : List Event :=
  [.send c soundOffMsg, .send c notesOffMsg, .send c resetCtrlMsg, .closeOut c]

/-- Does an event concern output connection `c` (a send through it or its
close)? -/
def touchesOut (c : Nat) : Event → Bool
  | .send c' _ => c' == c
  | .closeOut c' => c' == c
  | _ => false

/-- Events that neither send through output connection `c` nor close it. -/
def CFree (c : Nat) (E : List Event) : Prop := ∀ e ∈ E, touchesOut c e = false

/-! ### Concrete scenarios used as witnesses and counterexamples -/

/-- Driver state with three input ports and one output port (two inputs share
the prefix `pad`). -/
def envAmb : MidiEnv := ⟨["kbd", "padA", "padB"], ["out1"]⟩

/-- The empty heap. -/
def w0 : World := ⟨[], 0, []⟩

/-- A freshly constructed station. -/
def st0 : Station := ⟨[], [], none⟩

/-- A station that remembers a previously applied wiring. -/
def stPrev : Station := ⟨[], [], some [(.str "kbd", .all_channels, .str "out1")]⟩

/-- A wiring whose first rule resolves and whose second rule is ambiguous
against `envAmb`. -/
def wiringAmb : Wiring :=
  [(.str "kbd", .all_channels, .str "out1"), (.str "pad", .all_channels, .str "out1")]

/-- Driver state with one input port and one output port. -/
def envGhost : MidiEnv := ⟨["kbd"], ["out1"]⟩

/-- A wiring whose first rule matches no input and whose second resolves. -/
def wiringGhost : Wiring :=
  [(.str "ghost", .all_channels, .str "out1"), (.str "kbd", .all_channels, .str "out1")]

/-- A heap for the reset scenario: device 0 is an input device with input
connection 0 open, device 1 an output device with output connection 1 open. -/
def wReset : World :=
  ⟨[⟨"kbd", 0, some 0, none, []⟩, ⟨"out", 1, none, some 1, []⟩], 2, []⟩

/-- A station in which output device 1 was registered twice (two rules with
the same destination). -/
def stReset : Station := ⟨[0], [1, 1], some []⟩

/-- A heap with two fresh devices, used for the forward-route scenarios. -/
def wFwd : World := ⟨[⟨"kbd", 0, none, none, []⟩, ⟨"out", 1, none, none, []⟩], 0, []⟩

/-- A heap for the callback scenario: device 0 forwards to devices 1 (all
channels) and 2 (channel 1), both with open outputs. -/
def wCb : World :=
  ⟨[⟨"kbd", 0, some 2, none, [(1, .all_channels), (2, .channel 1)]⟩,
    ⟨"outA", 1, none, some 0, []⟩, ⟨"outB", 2, none, some 1, []⟩], 3, []⟩

/-- A heap with two devices whose names share the prefix `pad`. -/
def wPad : World := ⟨[⟨"padA", 0, none, none, []⟩, ⟨"padB", 1, none, none, []⟩], 0, []⟩

/-- Spec-side description of the panic sweep over `n` discoverable output
ports: port after port, in index order, a transient connection is opened,
the three-message silence sequence is sent through it, and it is closed;
`c` is the first fresh connection id and `p` the first port number. -/
def panicSweep (c p : Nat) : Nat → List Event
  | 0 => []
  | n + 1 => (Event.openOut c p :: silenceBlock c) ++ panicSweep (c + 1) (p + 1) n

/-! ### Basic list-heap lemmas -/

theorem getD_cons_succ_ax {α : Type _} (a : α) (l : List α) (i : Nat) (d : α) :
    (a :: l).getD (i + 1) d = l.getD i d := rfl

theorem getD_len_le {α : Type _} :
    ∀ (l : List α) (i : Nat) (d : α), l.length ≤ i → l.getD i d = d := by
  intro l
  induction l with
  | nil => intro i d _; rfl
  | cons a t ih =>
    intro i d h
    cases i with
    | zero => simp at h
    | succ j =>
      rw [getD_cons_succ_ax]
      exact ih j d (Nat.le_of_succ_le_succ h)

theorem getD_set_self {α : Type _} :
    ∀ (l : List α) (i : Nat) (a d : α), i < l.length → (l.set i a).getD i d = a := by
  intro l
  induction l with
  | nil => intro i a d h; simp at h
  | cons b t ih =>
    intro i a d h
    cases i with
    | zero => rfl
    | succ j =>
      show (t.set j a).getD j d = a
      exact ih j a d (Nat.lt_of_succ_lt_succ h)

theorem getD_set_ne {α : Type _} :
    ∀ (l : List α) (i j : Nat) (a d : α), i ≠ j → (l.set i a).getD j d = l.getD j d := by
  intro l
  induction l with
  | nil => intro i j a d _; rfl
  | cons b t ih =>
    intro i j a d h
    cases i with
    | zero =>
      cases j with
      | zero => exact absurd rfl h
      | succ k => rfl
    | succ i' =>
      cases j with
      | zero => rfl
      | succ k =>
        show (t.set i' a).getD k d = t.getD k d
        exact ih i' k a d (fun hh => h (by rw [hh]))

theorem getD_append_left {α : Type _} :
    ∀ (l m : List α) (i : Nat) (d : α), i < l.length → (l ++ m).getD i d = l.getD i d := by
  intro l
  induction l with
  | nil => intro m i d h; simp at h
  | cons a t ih =>
    intro m i d h
    cases i with
    | zero => rfl
    | succ j =>
      show (t ++ m).getD j d = t.getD j d
      exact ih m j d (Nat.lt_of_succ_lt_succ h)

theorem getD_append_len {α : Type _} :
    ∀ (l : List α) (a d : α), (l ++ [a]).getD l.length d = a := by
  intro l
  induction l with
  | nil => intro a d; rfl
  | cons b t ih => intro a d; exact ih a d

/-! ### Heap access lemmas -/

theorem devAt_len_le (w : World) (i : Nat) (h : w.devices.length ≤ i) :
    devAt w i = dDefault := getD_len_le _ _ _ h

theorem devAt_updDev_self (w : World) (i : Nat) (dev : MidiDevice)
    (h : i < w.devices.length) : devAt (updDev w i dev) i = dev :=
  getD_set_self _ _ _ _ h

theorem devAt_updDev_ne (w : World) (i j : Nat) (dev : MidiDevice) (h : i ≠ j) :
    devAt (updDev w i dev) j = devAt w j :=
  getD_set_ne _ _ _ _ _ h

theorem length_updDev (w : World) (i : Nat) (dev : MidiDevice) :
    (updDev w i dev).devices.length = w.devices.length := by
  simp [updDev]

theorem devAt_lt_of_input (w : World) (i : Nat) (c : Nat)
    (h : (devAt w i).input = some c) : i < w.devices.length := by
  by_contra hn
  rw [devAt_len_le w i (Nat.le_of_not_lt hn)] at h
  simp [dDefault] at h

theorem devAt_lt_of_output (w : World) (i : Nat) (c : Nat)
    (h : (devAt w i).output = some c) : i < w.devices.length := by
  by_contra hn
  rw [devAt_len_le w i (Nat.le_of_not_lt hn)] at h
  simp [dDefault] at h

/-! ### Lemmas about closing devices -/

theorem cfree_nil (c : Nat) : CFree c [] := by intro e he; cases he

theorem cfree_append (c : Nat) (E F : List Event) (hE : CFree c E) (hF : CFree c F) :
    CFree c (E ++ F) := by
  intro e he
  rcases List.mem_append.1 he with h | h
  · exact hE e h
  · exact hF e h

theorem cfree_silenceBlock (c co : Nat) (h : co ≠ c) : CFree c (silenceBlock co) := by
  intro ev hev
  simp only [silenceBlock, List.mem_cons] at hev
  rcases hev with h1 | h1 | h1 | h1 | h1
  · subst h1; simp [touchesOut, h]
  · subst h1; simp [touchesOut, h]
  · subst h1; simp [touchesOut, h]
  · subst h1; simp [touchesOut, h]
  · exact absurd h1 (List.not_mem_nil ev)

theorem devOut_closeInStep (w : World) (e d' : Nat) :
    devOut (closeInStep w e) d' = devOut w d' := by
  unfold closeInStep
  cases h : (devAt w e).input with
  | none => rfl
  | some ci =>
    by_cases hde : d' = e
    · subst hde
      show (devAt (updDev w d' { devAt w d' with input := none }) d').output
        = (devAt w d').output
      rw [devAt_updDev_self w d' _ (devAt_lt_of_input w d' ci h)]
    · show (devAt (updDev w e { devAt w e with input := none }) d').output
        = (devAt w d').output
      rw [devAt_updDev_ne w e d' _ (fun hh => hde hh.symm)]

theorem closeInStep_trace (w : World) (e : Nat) :
    ∃ E, (closeInStep w e).trace = w.trace ++ E ∧ ∀ c, CFree c E := by
  unfold closeInStep
  cases h : (devAt w e).input with
  | none => exact ⟨[], by simp, fun c => cfree_nil c⟩
  | some ci =>
    refine ⟨[.closeIn ci], rfl, fun c => ?_⟩
    intro ev hev
    simp only [List.mem_singleton] at hev
    subst hev
    rfl

theorem closeOutStep_none (w : World) (e : Nat) (h : devOut w e = none) :
    closeOutStep w e = w := by
  unfold devOut at h
  unfold closeOutStep
  rw [h]

theorem closeOutStep_some_trace (w : World) (e co : Nat) (h : devOut w e = some co) :
    (closeOutStep w e).trace = w.trace ++ silenceBlock co := by
  unfold devOut at h
  unfold closeOutStep
  rw [h]
  rfl

theorem devOut_closeOutStep (w : World) (e d' : Nat) :
    devOut (closeOutStep w e) d' = if d' = e then none else devOut w d' := by
  unfold closeOutStep
  cases h : (devAt w e).output with
  | none =>
    by_cases hde : d' = e
    · subst hde
      rw [if_pos rfl]
      show (devAt w d').output = none
      exact h
    · rw [if_neg hde]
  | some co =>
    by_cases hde : d' = e
    · subst hde
      rw [if_pos rfl]
      show (devAt (updDev w d' { devAt w d' with output := none }) d').output = none
      rw [devAt_updDev_self w d' _ (devAt_lt_of_output w d' co h)]
    · rw [if_neg hde]
      show (devAt (updDev w e { devAt w e with output := none }) d').output
        = (devAt w d').output
      rw [devAt_updDev_ne w e d' _ (fun hh => hde hh.symm)]

theorem devOut_deviceClose (w : World) (e d' : Nat) :
    devOut (deviceClose w e) d' = if d' = e then none else devOut w d' := by
  unfold deviceClose
  rw [devOut_closeOutStep, devOut_closeInStep]

theorem deviceClose_trace_none (w : World) (e : Nat) (h : devOut w e = none) :
    ∃ E, (deviceClose w e).trace = w.trace ++ E ∧ ∀ c, CFree c E := by
  obtain ⟨E, hE, hfree⟩ := closeInStep_trace w e
  refine ⟨E, ?_, hfree⟩
  unfold deviceClose
  rw [closeOutStep_none _ _ (by rw [devOut_closeInStep]; exact h), hE]

theorem deviceClose_trace_some (w : World) (e co : Nat) (h : devOut w e = some co) :
    ∃ E, (deviceClose w e).trace = w.trace ++ E ++ silenceBlock co ∧ ∀ c, CFree c E := by
  obtain ⟨E, hE, hfree⟩ := closeInStep_trace w e
  refine ⟨E, ?_, hfree⟩
  unfold deviceClose
  rw [closeOutStep_some_trace _ _ co (by rw [devOut_closeInStep]; exact h), hE]

theorem deviceClose_trace_free (w : World) (e c : Nat) (h : devOut w e ≠ some c) :
    ∃ E, (deviceClose w e).trace = w.trace ++ E ∧ CFree c E := by
  cases hcase : devOut w e with
  | none =>
    obtain ⟨E, hE, hfree⟩ := deviceClose_trace_none w e hcase
    exact ⟨E, hE, hfree c⟩
  | some co =>
    have hco : co ≠ c := by
      intro hh
      exact h (by rw [hcase, hh])
    obtain ⟨E, hE, hfree⟩ := deviceClose_trace_some w e co hcase
    refine ⟨E ++ silenceBlock co, ?_,
      cfree_append c _ _ (hfree c) (cfree_silenceBlock c co hco)⟩
    rw [hE, List.append_assoc]

theorem closeAll_cons (w : World) (e : Nat) (t : List Nat) :
    closeAll w (e :: t) = closeAll (deviceClose w e) t := rfl

theorem closeAll_free (c : Nat) :
    ∀ (L : List Nat) (w : World), (∀ d', devOut w d' ≠ some c) →
    ∃ E, (closeAll w L).trace = w.trace ++ E ∧ CFree c E ∧
      (∀ d', devOut (closeAll w L) d' ≠ some c) := by
  intro L
  induction L with
  | nil =>
    intro w h
    exact ⟨[], by simp [closeAll], cfree_nil c, h⟩
  | cons e t ih =>
    intro w h
    have h1 : ∀ d', devOut (deviceClose w e) d' ≠ some c := by
      intro d'
      rw [devOut_deviceClose]
      by_cases hde : d' = e
      · rw [if_pos hde]; simp
      · rw [if_neg hde]; exact h d'
    obtain ⟨E0, hE0, hfree0⟩ := deviceClose_trace_free w e c (h e)
    obtain ⟨E1, hE1, hfree1, hpost⟩ := ih (deviceClose w e) h1
    refine ⟨E0 ++ E1, ?_, cfree_append c _ _ hfree0 hfree1, ?_⟩
    · rw [closeAll_cons, hE1, hE0, List.append_assoc]
    · rw [closeAll_cons]
      exact hpost

theorem closeAll_block (c d : Nat) :
    ∀ (L : List Nat) (w : World), d ∈ L → devOut w d = some c →
    (∀ d', d' ≠ d → devOut w d' ≠ some c) →
    ∃ A B, (closeAll w L).trace = w.trace ++ A ++ silenceBlock c ++ B ∧
      CFree c A ∧ CFree c B := by
  intro L
  induction L with
  | nil => intro w hmem; cases hmem
  | cons e t ih =>
    intro w hmem hc huniq
    by_cases hed : e = d
    · subst hed
      obtain ⟨E0, hE0, hfree0⟩ := deviceClose_trace_some w e c hc
      have h1 : ∀ d', devOut (deviceClose w e) d' ≠ some c := by
        intro d'
        rw [devOut_deviceClose]
        by_cases hde : d' = e
        · rw [if_pos hde]; simp
        · rw [if_neg hde]; exact huniq d' hde
      obtain ⟨E1, hE1, hfree1, _⟩ := closeAll_free c t (deviceClose w e) h1
      refine ⟨E0, E1, ?_, hfree0 c, hfree1⟩
      rw [closeAll_cons, hE1, hE0]
    · have hdt : d ∈ t := by
        rcases List.mem_cons.1 hmem with h | h
        · exact absurd h.symm hed
        · exact h
      have hne : devOut w e ≠ some c := huniq e hed
      obtain ⟨E0, hE0, hfree0⟩ := deviceClose_trace_free w e c hne
      have hc1 : devOut (deviceClose w e) d = some c := by
        rw [devOut_deviceClose, if_neg (fun hh : d = e => hed hh.symm)]
        exact hc
      have huniq1 : ∀ d', d' ≠ d → devOut (deviceClose w e) d' ≠ some c := by
        intro d' hd'
        rw [devOut_deviceClose]
        by_cases hde : d' = e
        · rw [if_pos hde]; simp
        · rw [if_neg hde]; exact huniq d' hd'
      obtain ⟨A, B, hAB, hfA, hfB⟩ := ih (deviceClose w e) hdt hc1 huniq1
      refine ⟨E0 ++ A, B, ?_, cfree_append c _ _ hfree0 hfA, hfB⟩
      rw [closeAll_cons, hAB, hE0]
      simp [List.append_assoc]

/-! ### Claim C2: reset silences each active output device exactly once -/

theorem reset_fst (w : World) (st : Station) :
    (Station.reset w st).1 = closeAll w (st.input_devices ++ st.output_devices) := by
  show closeAll (closeAll w st.input_devices) st.output_devices = _
  rw [closeAll, closeAll, closeAll, List.foldl_append]

/-- C2: on `reset`, every device `d` that is active (it appears in the active
input or output lists) and has an open output connection `c` — assuming no
other device shares that connection, which discovery guarantees since
connection ids are handed out fresh — receives exactly the three silence
messages `[CONTROL_CHANGE, ALL_SOUND_OFF, 0]`, `[CONTROL_CHANGE,
ALL_NOTES_OFF, 0]`, `[CONTROL_CHANGE, RESET_ALL_CONTROLLERS, 0]` (channel 0,
value 0), in that order, immediately followed by the close of that
connection; no other send through `c` and no other close of `c` occurs
anywhere in the reset trace, so the sequence happens exactly once even when
`d` was registered several times.  Moreover a second consecutive `reset` is
the identity: it sends nothing because the active lists were cleared. -/
theorem c2_reset_silences (w : World) (st : Station) (d c : Nat)
    (hd : d ∈ st.input_devices ++ st.output_devices)
    (hc : devOut w d = some c)
    (huniq : ∀ d', d' < w.devices.length → d' ≠ d → devOut w d' ≠ some c) :
    (∃ A B, (Station.reset w st).1.trace
        = w.trace ++ A ++ silenceBlock c ++ B ∧ CFree c A ∧ CFree c B) ∧
    Station.reset (Station.reset w st).1 (Station.reset w st).2 = Station.reset w st := by
  constructor
  · have huniq' : ∀ d', d' ≠ d → devOut w d' ≠ some c := by
      intro d' hne
      by_cases hlt : d' < w.devices.length
      · exact huniq d' hlt hne
      · rw [devOut, devAt_len_le w d' (Nat.le_of_not_lt hlt)]
        simp [dDefault]
    obtain ⟨A, B, hAB, hfA, hfB⟩ :=
      closeAll_block c d (st.input_devices ++ st.output_devices) w hd hc huniq'
    rw [reset_fst]
    exact ⟨A, B, hAB, hfA, hfB⟩
  · rfl

/-- Witness for C2 at a concrete state: output device 1 is registered twice in
the active output list, its connection is 1, and the theorem applies. -/
theorem c2_reset_silences_witness :
    (1 ∈ stReset.input_devices ++ stReset.output_devices) ∧
    devOut wReset 1 = some 1 ∧
    (∀ d', d' < wReset.devices.length → d' ≠ 1 → devOut wReset d' ≠ some 1) ∧
    ((∃ A B, (Station.reset wReset stReset).1.trace
        = wReset.trace ++ A ++ silenceBlock 1 ++ B ∧ CFree 1 A ∧ CFree 1 B) ∧
      Station.reset (Station.reset wReset stReset).1 (Station.reset wReset stReset).2
        = Station.reset wReset stReset) :=
  ⟨by decide, by decide, by decide,
    c2_reset_silences wReset stReset 1 1 (by decide) (by decide) (by decide)⟩

/-! ### Claim C1: the receive callback forwards by channel nibble -/

theorem devOut_set_trace (w : World) (t : List Event) (i : Nat) :
    devOut { w with trace := t } i = devOut w i := rfl

theorem cbLoop_eq (msg : List Nat) (nib : Nat) :
    ∀ (F : List (Nat × ChannelSpec)) (w : World),
    (∀ p ∈ F, (devOut w p.1).isSome) →
    cbLoop w msg nib F =
      ({ w with trace := w.trace ++
        ((F.filter (fun p => chan_eq p.2 (nib + 1))).map
          (fun p => Event.send ((devOut w p.1).getD 0) msg)) }, none) := by
  intro F
  induction F with
  | nil =>
    intro w _
    simp [cbLoop]
  | cons p t ih =>
    intro w h
    obtain ⟨o, ch⟩ := p
    by_cases hch : chan_eq ch (nib + 1) = true
    · have hs : (devOut w o).isSome := h (o, ch) (List.mem_cons_self _ _)
      obtain ⟨c, hc⟩ := Option.isSome_iff_exists.1 hs
      have ht : ∀ p ∈ t, (devOut w p.1).isSome := fun p hp => h p (List.mem_cons_of_mem _ hp)
      rw [cbLoop, hc]
      simp only [hch, if_true]
      rw [ih { w with trace := w.trace ++ [Event.send c msg] } ht]
      simp only [devOut_set_trace]
      simp [hch, hc, List.filter_cons, List.append_assoc]
    · have ht : ∀ p ∈ t, (devOut w p.1).isSome := fun p hp => h p (List.mem_cons_of_mem _ hp)
      rw [cbLoop]
      simp only [hch, if_false]
      rw [ih w ht]
      simp [hch, List.filter_cons]

theorem chan_eq_nibbleMatch (ch : ChannelSpec) (c : Nat) :
    chan_eq ch (c + 1) = nibbleMatch ch c := by
  cases ch <;> rfl

/-- C1: for a device `d` whose forward routes all have destinations with an
open output connection, delivering a message `b :: rest` runs the callback,
which extracts the channel nibble as the low 4 bits `b &&& 15` of the first
byte and appends to the trace exactly one send of the entire unmodified
message through the output connection of the destination of each route whose
channel spec matches the nibble — `all_channels` matches every nibble and
`channel n` matches nibble `c` iff `n = c + 1` (that is `nibbleMatch`) —
in route-registration order, so one message may go to several destinations;
no state other than the trace changes and no error is raised. -/
theorem c1_callback_channel_filter (w : World) (d b : Nat) (rest : List Nat)
    (hopen : ∀ p ∈ (devAt w d).forwards, (devOut w p.1).isSome) :
    callback w d (b :: rest) =
      ({ w with trace := w.trace ++
        (((devAt w d).forwards.filter (fun p => nibbleMatch p.2 (b &&& 15))).map
          (fun p => Event.send ((devOut w p.1).getD 0) (b :: rest))) }, none) := by
  have hfun : (fun p : Nat × ChannelSpec => chan_eq p.2 ((b &&& 15) + 1))
      = (fun p : Nat × ChannelSpec => nibbleMatch p.2 (b &&& 15)) := by
    funext p
    exact chan_eq_nibbleMatch p.2 (b &&& 15)
  rw [callback, cbLoop_eq (b :: rest) (b &&& 15) _ w hopen, hfun]

/-- Witness for C1: device 0 of `wCb` has two routes (`all_channels` to
device 1 and `channel 1` to device 2); a message with first byte 144
(nibble 0) is forwarded, whole, to both destinations. -/
theorem c1_callback_channel_filter_witness :
    (∀ p ∈ (devAt wCb 0).forwards, (devOut wCb p.1).isSome) ∧
    callback wCb 0 (144 :: [60, 100]) =
      ({ wCb with trace := wCb.trace ++
        (((devAt wCb 0).forwards.filter (fun p => nibbleMatch p.2 (144 &&& 15))).map
          (fun p => Event.send ((devOut wCb p.1).getD 0) (144 :: [60, 100]))) }, none) :=
  ⟨by decide, c1_callback_channel_filter wCb 0 144 [60, 100] (by decide)⟩

/-! ### Claim C10: name-spec matching semantics -/

theorem occursIn_iff (needle : List Char) :
    ∀ hay, occursIn needle hay = true ↔ needle <:+: hay := by
  intro hay
  induction hay with
  | nil =>
    cases needle with
    | nil => simp [occursIn, List.isEmpty]
    | cons c t => simp [occursIn, List.isEmpty]
  | cons c t ih =>
    rw [occursIn, Bool.or_eq_true, ih, List.isPrefixOf_iff_prefix, List.infix_cons_iff]

/-- C10: a `Substring` spec `S` matches a device name `D` iff the
character-wise lower-casing of `S` occurs contiguously inside the
character-wise lower-casing of `D`; an `Exact` spec `S` matches `D` iff `S`
and `D` are equal as strings, case-sensitively, with no case folding. -/
theorem c10_matches_semantics (S D : String) :
    (matchesSpec (.str S) D = true ↔ lowerChars S <:+: lowerChars D) ∧
    (matchesSpec (.exact S) D = true ↔ S = D) := by
  constructor
  · exact occursIn_iff (lowerChars S) (lowerChars D)
  · simp [matchesSpec]

/-! ### Claim C5: an ambiguous spec raises -/

theorem findLoop_no_match (w : World) (spec : NameSpec) :
    ∀ (ids : List Nat) (acc : Option Nat),
    ids.filter (fun i => matchesSpec spec (devAt w i).full_name) = [] →
    findLoop w spec acc ids = .ok acc := by
  intro ids
  induction ids with
  | nil => intro acc _; rfl
  | cons i t ih =>
    intro acc hf
    rw [List.filter_cons] at hf
    by_cases hm : matchesSpec spec (devAt w i).full_name = true
    · simp [hm] at hf
    · simp only [hm, if_false, Bool.false_eq_true, reduceIte] at hf
      simp only [findLoop]
      simp only [hm, if_false]
      exact ih acc hf

theorem findLoop_acc_some_match (w : World) (spec : NameSpec) :
    ∀ (ids : List Nat) (a : Nat),
    ids.filter (fun i => matchesSpec spec (devAt w i).full_name) ≠ [] →
    findLoop w spec (some a) ids
      = .error (.ambiguousSpec ("More than one devices match " ++ specStr spec)) := by
  intro ids
  induction ids with
  | nil => intro a hf; exact absurd rfl hf
  | cons i t ih =>
    intro a hf
    rw [List.filter_cons] at hf
    by_cases hm : matchesSpec spec (devAt w i).full_name = true
    · simp only [findLoop]
      simp [hm]
    · simp only [hm, if_false, Bool.false_eq_true, reduceIte] at hf
      simp only [findLoop]
      simp only [hm, if_false]
      exact ih a hf

/-- C5: whenever at least two devices of the candidate list match a spec,
`__find_matching_device` raises the `AmbiguousSpec` exception (the Python
`Exception("More than one devices match " + str(spec))`), so a rule whose
spec matches more than one candidate fails during `wire`. -/
theorem c5_ambiguous_raises (w : World) (spec : NameSpec) (ids : List Nat)
    (h : 2 ≤ (ids.filter (fun i => matchesSpec spec (devAt w i).full_name)).length) :
    findMatchingDevice w spec ids
      = .error (.ambiguousSpec ("More than one devices match " ++ specStr spec)) := by
  rw [findMatchingDevice]
  induction ids with
  | nil => simp at h
  | cons i t ih =>
    rw [List.filter_cons] at h
    by_cases hm : matchesSpec spec (devAt w i).full_name = true
    · simp only [findLoop]
      simp only [hm, if_true]
      apply findLoop_acc_some_match
      simp only [hm, if_pos] at h
      intro hnil
      rw [hnil] at h
      simp at h
    · simp only [hm, if_false, Bool.false_eq_true, reduceIte] at h
      simp only [findLoop]
      simp only [hm, if_false]
      exact ih h

/-- Witness for C5: the input names `padA` and `padB` both match the spec
`Substring("pad")`, and resolution raises `AmbiguousSpec`. -/
theorem c5_ambiguous_raises_witness :
    2 ≤ (([0, 1] : List Nat).filter
        (fun i => matchesSpec (.str "pad") (devAt wPad i).full_name)).length ∧
    findMatchingDevice wPad (.str "pad") [0, 1]
      = .error (.ambiguousSpec ("More than one devices match " ++ specStr (.str "pad"))) :=
  ⟨by decide, c5_ambiguous_raises wPad (.str "pad") [0, 1] (by decide)⟩

/-! ### Claim C3: registering a forward route -/

theorem set_len_le {α : Type _} :
    ∀ (l : List α) (n : Nat) (a : α), l.length ≤ n → l.set n a = l := by
  intro l
  induction l with
  | nil => intro n a _; rfl
  | cons b t ih =>
    intro n a h
    cases n with
    | zero => simp at h
    | succ m =>
      show b :: t.set m a = b :: t
      rw [ih m a (Nat.le_of_succ_le_succ h)]

theorem prep_of_some (w : World) (o co : Nat) (h : (devAt w o).output = some co) :
    prepareForOutput w o = w := by
  unfold prepareForOutput
  rw [h]

theorem length_prep (w : World) (o : Nat) :
    (prepareForOutput w o).devices.length = w.devices.length := by
  unfold prepareForOutput
  cases h : (devAt w o).output with
  | some co => rfl
  | none => simp [updDev]

theorem nextConn_prep_ge (w : World) (o : Nat) :
    w.nextConn ≤ (prepareForOutput w o).nextConn := by
  unfold prepareForOutput
  cases h : (devAt w o).output with
  | some co => exact Nat.le_refl _
  | none => exact Nat.le_succ _

theorem devAt_prep_ne (w : World) (o j : Nat) (h : j ≠ o) :
    devAt (prepareForOutput w o) j = devAt w j := by
  unfold prepareForOutput
  cases hc : (devAt w o).output with
  | some co => rfl
  | none =>
    show devAt (updDev w o _) j = devAt w j
    exact devAt_updDev_ne w o j _ (fun hh => h hh.symm)

theorem devAt_prep_self_none (w : World) (o : Nat) (hc : (devAt w o).output = none)
    (hlt : o < w.devices.length) :
    devAt (prepareForOutput w o) o = { devAt w o with output := some w.nextConn } := by
  unfold prepareForOutput
  rw [hc]
  show devAt (updDev w o _) o = _
  exact devAt_updDev_self w o _ hlt

theorem forwards_prep (w : World) (o d : Nat) :
    (devAt (prepareForOutput w o) d).forwards = (devAt w d).forwards := by
  by_cases hdo : d = o
  · subst hdo
    cases hc : (devAt w d).output with
    | some co => rw [prep_of_some w d co hc]
    | none =>
      by_cases hlt : d < w.devices.length
      · rw [devAt_prep_self_none w d hc hlt]
      · unfold prepareForOutput
        rw [hc]
        show (devAt (updDev w d _) d).forwards = (devAt w d).forwards
        unfold updDev devAt
        rw [set_len_le _ _ _ (Nat.le_of_not_lt hlt)]
  · rw [devAt_prep_ne w o d hdo]

theorem input_prep (w : World) (o d : Nat) :
    (devAt (prepareForOutput w o) d).input = (devAt w d).input := by
  by_cases hdo : d = o
  · subst hdo
    cases hc : (devAt w d).output with
    | some co => rw [prep_of_some w d co hc]
    | none =>
      by_cases hlt : d < w.devices.length
      · rw [devAt_prep_self_none w d hc hlt]
      · unfold prepareForOutput
        rw [hc]
        show (devAt (updDev w d _) d).input = (devAt w d).input
        unfold updDev devAt
        rw [set_len_le _ _ _ (Nat.le_of_not_lt hlt)]
  · rw [devAt_prep_ne w o d hdo]

theorem port_prep (w : World) (o d : Nat) :
    (devAt (prepareForOutput w o) d).port = (devAt w d).port := by
  by_cases hdo : d = o
  · subst hdo
    cases hc : (devAt w d).output with
    | some co => rw [prep_of_some w d co hc]
    | none =>
      by_cases hlt : d < w.devices.length
      · rw [devAt_prep_self_none w d hc hlt]
      · unfold prepareForOutput
        rw [hc]
        show (devAt (updDev w d _) d).port = (devAt w d).port
        unfold updDev devAt
        rw [set_len_le _ _ _ (Nat.le_of_not_lt hlt)]
  · rw [devAt_prep_ne w o d hdo]

theorem devAt_mk (l : List MidiDevice) (n : Nat) (t : List Event) (i : Nat) :
    devAt (World.mk l n t) i = l.getD i dDefault := rfl

theorem fwd_forwards (w : World) (d o : Nat) (ch : ChannelSpec)
    (hd : d < w.devices.length) :
    (devAt (forwardMessages w d o ch) d).forwards = (devAt w d).forwards ++ [(o, ch)] := by
  have h1 : d < (prepareForOutput w o).devices.length := by
    rw [length_prep]; exact hd
  have h2 : d < ((prepareForOutput w o).devices.set d
      { devAt (prepareForOutput w o) d with input := some (prepareForOutput w o).nextConn }).length := by
    rw [List.length_set]; exact h1
  simp only [forwardMessages, updDev, devAt_mk]
  rw [getD_set_self _ _ _ _ h2, getD_set_self _ _ _ _ h1]
  show (devAt (prepareForOutput w o) d).forwards ++ [(o, ch)] = _
  rw [forwards_prep]

theorem fwd_input (w : World) (d o : Nat) (ch : ChannelSpec)
    (hd : d < w.devices.length) :
    (devAt (forwardMessages w d o ch) d).input = some (prepareForOutput w o).nextConn := by
  have h1 : d < (prepareForOutput w o).devices.length := by
    rw [length_prep]; exact hd
  have h2 : d < ((prepareForOutput w o).devices.set d
      { devAt (prepareForOutput w o) d with input := some (prepareForOutput w o).nextConn }).length := by
    rw [List.length_set]; exact h1
  simp only [forwardMessages, updDev, devAt_mk]
  rw [getD_set_self _ _ _ _ h2, getD_set_self _ _ _ _ h1]

theorem fwd_devOut (w : World) (d o : Nat) (ch : ChannelSpec) (j : Nat) :
    devOut (forwardMessages w d o ch) j = devOut (prepareForOutput w o) j := by
  by_cases hd : d < w.devices.length
  · have h1 : d < (prepareForOutput w o).devices.length := by
      rw [length_prep]; exact hd
    have h2 : d < ((prepareForOutput w o).devices.set d
        { devAt (prepareForOutput w o) d with input := some (prepareForOutput w o).nextConn }).length := by
      rw [List.length_set]; exact h1
    by_cases hjd : j = d
    · subst hjd
      unfold devOut
      simp only [forwardMessages, updDev, devAt_mk]
      rw [getD_set_self _ _ _ _ h2, getD_set_self _ _ _ _ h1]
    · unfold devOut
      simp only [forwardMessages, updDev, devAt_mk]
      rw [getD_set_ne _ _ _ _ _ (fun hh => hjd hh.symm),
        getD_set_ne _ _ _ _ _ (fun hh => hjd hh.symm)]
      rfl
  · have h1 : (prepareForOutput w o).devices.length ≤ d := by
      rw [length_prep]; exact Nat.le_of_not_lt hd
    unfold devOut
    simp only [forwardMessages, updDev, devAt_mk]
    rw [set_len_le _ _ _ h1, set_len_le _ _ _ h1]
    rfl

theorem fwd_trace (w : World) (d o : Nat) (ch : ChannelSpec) :
    (forwardMessages w d o ch).trace
      = (prepareForOutput w o).trace ++
        [Event.openIn (prepareForOutput w o).nextConn (devAt w d).port] := by
  simp only [forwardMessages, updDev]
  rw [port_prep]

/-- C3 (amended): `forward_messages(output, channel)` calls
`output.prepare_for_output()` — which is indeed idempotent: an already open
output connection is reused, and a fresh one is opened only when none was
open — but then *unconditionally* creates a fresh input connection on this
device's port, installs the receive callback on it, and stores it in
`self.input`, replacing whatever input connection was there before (the
claim's assertion that the input side is opened only when not already open
does not hold); finally `(output, channel)` is appended to the route list,
so existing routes are preserved. -/
theorem c3_forward_messages_spec (w : World) (d o : Nat) (ch : ChannelSpec)
    (hd : d < w.devices.length) :
    (devAt (forwardMessages w d o ch) d).forwards = (devAt w d).forwards ++ [(o, ch)] ∧
    (devAt (forwardMessages w d o ch) d).input = some (prepareForOutput w o).nextConn ∧
    (∀ ci, (devAt w d).input = some ci → ci < w.nextConn →
      (devAt (forwardMessages w d o ch) d).input ≠ some ci) ∧
    (∀ co, (devAt w o).output = some co → devOut (forwardMessages w d o ch) o = some co) ∧
    ((devAt w o).output = none → o < w.devices.length →
      devOut (forwardMessages w d o ch) o = some w.nextConn) ∧
    (forwardMessages w d o ch).trace
      = (prepareForOutput w o).trace ++
        [Event.openIn (prepareForOutput w o).nextConn (devAt w d).port] := by
  refine ⟨fwd_forwards w d o ch hd, fwd_input w d o ch hd, ?_, ?_, ?_, fwd_trace w d o ch⟩
  · intro ci hci hlt hcontra
    rw [fwd_input w d o ch hd] at hcontra
    have : (prepareForOutput w o).nextConn = ci := Option.some.inj hcontra
    have hge := nextConn_prep_ge w o
    rw [this] at hge
    exact Nat.not_lt_of_le hge hlt
  · intro co hco
    rw [fwd_devOut, prep_of_some w o co hco]
    exact hco
  · intro hco hlt
    rw [fwd_devOut]
    unfold devOut
    rw [devAt_prep_self_none w o hco hlt]

/-- Witness for C3's amended statement at a concrete heap. -/
theorem c3_forward_messages_spec_witness :
    0 < wFwd.devices.length ∧
    ((devAt (forwardMessages wFwd 0 1 .all_channels) 0).forwards
        = (devAt wFwd 0).forwards ++ [(1, .all_channels)] ∧
      (devAt (forwardMessages wFwd 0 1 .all_channels) 0).input
        = some (prepareForOutput wFwd 1).nextConn ∧
      (∀ ci, (devAt wFwd 0).input = some ci → ci < wFwd.nextConn →
        (devAt (forwardMessages wFwd 0 1 .all_channels) 0).input ≠ some ci) ∧
      (∀ co, (devAt wFwd 1).output = some co →
        devOut (forwardMessages wFwd 0 1 .all_channels) 1 = some co) ∧
      ((devAt wFwd 1).output = none → 1 < wFwd.devices.length →
        devOut (forwardMessages wFwd 0 1 .all_channels) 1 = some wFwd.nextConn) ∧
      (forwardMessages wFwd 0 1 .all_channels).trace
        = (prepareForOutput wFwd 1).trace ++
          [Event.openIn (prepareForOutput wFwd 1).nextConn (devAt wFwd 0).port]) :=
  ⟨by decide, c3_forward_messages_spec wFwd 0 1 .all_channels (by decide)⟩

/-- C3 counterexample: on the two-device heap `wFwd`, registering a first
forward route opens input connection 1 on device 0; registering a second
route on the same device does not reuse it — the input connection is
replaced by the fresh connection 2 and a second `openIn` event occurs even
though an input connection was already open. -/
theorem c3_counterexample :
    (devAt (forwardMessages wFwd 0 1 .all_channels) 0).input = some 1 ∧
    (devAt (forwardMessages (forwardMessages wFwd 0 1 .all_channels) 0 1 (.channel 2)) 0).input
      = some 2 ∧
    (forwardMessages (forwardMessages wFwd 0 1 .all_channels) 0 1 (.channel 2)).trace.countP
      (fun e => match e with | Event.openIn _ _ => true | _ => false) = 2 := by
  decide

/-! ### Discovery lemmas -/

theorem discoverFrom_trace :
    ∀ (names : List String) (w : World) (p : Nat),
    (discoverFrom w p names).1.trace = w.trace := by
  intro names
  induction names with
  | nil => intro w p; rfl
  | cons n rest ih =>
    intro w p
    show (discoverFrom _ (p + 1) rest).1.trace = w.trace
    rw [ih]

theorem discoverFrom_nextConn :
    ∀ (names : List String) (w : World) (p : Nat),
    (discoverFrom w p names).1.nextConn = w.nextConn := by
  intro names
  induction names with
  | nil => intro w p; rfl
  | cons n rest ih =>
    intro w p
    show (discoverFrom _ (p + 1) rest).1.nextConn = w.nextConn
    rw [ih]

theorem discoverFrom_devices :
    ∀ (names : List String) (w : World) (p : Nat),
    ∃ l, (discoverFrom w p names).1.devices = w.devices ++ l := by
  intro names
  induction names with
  | nil => intro w p; exact ⟨[], by simp [discoverFrom]⟩
  | cons n rest ih =>
    intro w p
    obtain ⟨l, hl⟩ := ih { w with devices := w.devices ++ [⟨n, p, none, none, []⟩] } (p + 1)
    refine ⟨(⟨n, p, none, none, []⟩ : MidiDevice) :: l, ?_⟩
    have hshape : (discoverFrom w p (n :: rest)).1
        = (discoverFrom { w with devices := w.devices ++ [⟨n, p, none, none, []⟩] }
            (p + 1) rest).1 := rfl
    rw [hshape, hl]
    simp

theorem devAt_discoverFrom_old (names : List String) (w : World) (p i : Nat)
    (h : i < w.devices.length) :
    devAt (discoverFrom w p names).1 i = devAt w i := by
  obtain ⟨l, hl⟩ := discoverFrom_devices names w p
  unfold devAt
  rw [hl]
  exact getD_append_left _ _ _ _ h

theorem discoverFrom_ids_lt :
    ∀ (names : List String) (w : World) (p : Nat),
    ∀ i ∈ (discoverFrom w p names).2, i < (discoverFrom w p names).1.devices.length := by
  intro names
  induction names with
  | nil => intro w p i hi; cases hi
  | cons n rest ih =>
    intro w p i hi
    have hshape : (discoverFrom w p (n :: rest))
        = ((discoverFrom { w with devices := w.devices ++ [⟨n, p, none, none, []⟩] } (p + 1) rest).1,
          w.devices.length ::
            (discoverFrom { w with devices := w.devices ++ [⟨n, p, none, none, []⟩] } (p + 1) rest).2) := rfl
    rw [hshape] at hi ⊢
    rcases List.mem_cons.1 hi with h | h
    · subst h
      obtain ⟨l, hl⟩ :=
        discoverFrom_devices rest { w with devices := w.devices ++ [⟨n, p, none, none, []⟩] } (p + 1)
      rw [hl]
      simp only [List.length_append, List.length_cons, List.length_nil]
      omega
    · exact ih _ (p + 1) i h

theorem discoverFrom_names :
    ∀ (names : List String) (w : World) (p : Nat),
    ((discoverFrom w p names).2).map (fun i => (devAt (discoverFrom w p names).1 i).full_name)
      = names := by
  intro names
  induction names with
  | nil => intro w p; rfl
  | cons n rest ih =>
    intro w p
    have hshape : (discoverFrom w p (n :: rest))
        = ((discoverFrom { w with devices := w.devices ++ [⟨n, p, none, none, []⟩] } (p + 1) rest).1,
          w.devices.length ::
            (discoverFrom { w with devices := w.devices ++ [⟨n, p, none, none, []⟩] } (p + 1) rest).2) := rfl
    rw [hshape]
    show (devAt _ w.devices.length).full_name :: _ = n :: rest
    have hhead : (devAt (discoverFrom { w with devices := w.devices ++ [⟨n, p, none, none, []⟩] }
        (p + 1) rest).1 w.devices.length).full_name = n := by
      rw [devAt_discoverFrom_old rest _ (p + 1) w.devices.length
        (by simp only [List.length_append, List.length_cons, List.length_nil]; omega)]
      show ((w.devices ++ [(⟨n, p, none, none, []⟩ : MidiDevice)]).getD
          w.devices.length dDefault).full_name = n
      rw [getD_append_len]
    rw [hhead, ih]

/-! ### Claims C4 and C7: a failing wire call -/

theorem registerRoutes_last_wiring :
    ∀ (wl : List (Nat × Nat × ChannelSpec)) (w : World) (st : Station),
    ((registerRoutes w st wl).2).last_wiring = st.last_wiring := by
  intro wl
  induction wl with
  | nil => intro w st; rfl
  | cons r rest ih =>
    intro w st
    obtain ⟨i, o, ch⟩ := r
    show ((registerRoutes _ _ rest).2).last_wiring = st.last_wiring
    rw [ih]

/-- C7 (amended): `wire` records its argument as `last_wiring` as its very
first step, before any rule is resolved; therefore after *any* `wire(w)`
call — including one that fails with `AmbiguousSpec` — the station's
remembered wiring is `w`, the last *attempted* wiring, not the last
successfully applied one. -/
theorem c7_wire_records_argument (env : MidiEnv) (w : World) (st : Station) (wiring : Wiring) :
    (Station.wire env w st wiring).station.last_wiring = some wiring := by
  simp only [Station.wire]
  cases hm : (matchRules (discover (discover w env.input_ports).1 env.output_ports).1
      (discover w env.input_ports).2
      (discover (discover w env.input_ports).1 env.output_ports).2 wiring).2 with
  | error e => rfl
  | ok wl =>
    show ((registerRoutes _ _ wl).2).last_wiring = some wiring
    rw [registerRoutes_last_wiring]

/-- C7 counterexample: the station `stPrev` remembers a previously applied
wiring; calling `wire` with the ambiguous wiring `wiringAmb` fails with
`AmbiguousSpec`, yet the remembered wiring has changed to `wiringAmb`. -/
theorem c7_counterexample :
    (Station.wire envAmb w0 stPrev wiringAmb).err
      = some (.ambiguousSpec "More than one devices match pad") ∧
    (Station.wire envAmb w0 stPrev wiringAmb).station.last_wiring ≠ stPrev.last_wiring := by
  decide

/-- C4 (amended): when resolution of any rule raises (`AmbiguousSpec` is the
only such error), the exception propagates out of `wire` and no further
rules are processed; because `wire` registers routes only in a second loop
after *all* rules have been resolved, no route of this `wire` call — not
even from earlier, successfully resolved rules — has been registered: the
active device lists are exactly what they were before the call, no port was
opened (the trace is unchanged, and no connection id was consumed); only
`last_wiring` has been updated to the failed wiring.  Routes from earlier
`wire` calls thus remain the only active ones. -/
theorem c4_ambiguous_aborts_wire (env : MidiEnv) (w : World) (st : Station)
    (wiring : Wiring) (e : Err)
    (h : (Station.wire env w st wiring).err = some e) :
    (Station.wire env w st wiring).station.input_devices = st.input_devices ∧
    (Station.wire env w st wiring).station.output_devices = st.output_devices ∧
    (Station.wire env w st wiring).station.last_wiring = some wiring ∧
    (Station.wire env w st wiring).world.trace = w.trace ∧
    (Station.wire env w st wiring).world.nextConn = w.nextConn := by
  simp only [Station.wire] at h ⊢
  cases hm : (matchRules (discover (discover w env.input_ports).1 env.output_ports).1
      (discover w env.input_ports).2
      (discover (discover w env.input_ports).1 env.output_ports).2 wiring).2 with
  | ok wl =>
    rw [hm] at h
    exact absurd h (by simp)
  | error e2 =>
    refine ⟨rfl, rfl, rfl, ?_, ?_⟩
    · show (discover (discover w env.input_ports).1 env.output_ports).1.trace = w.trace
      simp only [discover]
      rw [discoverFrom_trace, discoverFrom_trace]
    · show (discover (discover w env.input_ports).1 env.output_ports).1.nextConn = w.nextConn
      simp only [discover]
      rw [discoverFrom_nextConn, discoverFrom_nextConn]

/-- Witness for C4's amended statement: the concrete failing wire call. -/
theorem c4_ambiguous_aborts_wire_witness :
    (Station.wire envAmb w0 st0 wiringAmb).err
        = some (.ambiguousSpec "More than one devices match pad") ∧
    ((Station.wire envAmb w0 st0 wiringAmb).station.input_devices = st0.input_devices ∧
      (Station.wire envAmb w0 st0 wiringAmb).station.output_devices = st0.output_devices ∧
      (Station.wire envAmb w0 st0 wiringAmb).station.last_wiring = some wiringAmb ∧
      (Station.wire envAmb w0 st0 wiringAmb).world.trace = w0.trace ∧
      (Station.wire envAmb w0 st0 wiringAmb).world.nextConn = w0.nextConn) :=
  ⟨by decide, c4_ambiguous_aborts_wire envAmb w0 st0 wiringAmb
    (.ambiguousSpec "More than one devices match pad") (by decide)⟩

/-- C4 counterexample: in the failing wire call the first rule had resolved
(kbd → out1), yet after the `AmbiguousSpec` failure no route at all is
active from this call — the claim that routes registered from earlier rules
of the same call stay active is false: the active input list is empty and no
input port was ever opened. -/
theorem c4_counterexample :
    (Station.wire envAmb w0 st0 wiringAmb).err
      = some (.ambiguousSpec "More than one devices match pad") ∧
    (Station.wire envAmb w0 st0 wiringAmb).station.input_devices = [] ∧
    (Station.wire envAmb w0 st0 wiringAmb).world.trace = [] := by
  decide

/-! ### Claim C6: unresolved rules are skipped, the rest still applies -/

theorem findLoop_one (w : World) (spec : NameSpec) :
    ∀ (ids : List Nat) (i : Nat),
    ids.filter (fun k => matchesSpec spec (devAt w k).full_name) = [i] →
    findLoop w spec none ids = .ok (some i) := by
  intro ids
  induction ids with
  | nil => intro i h; simp at h
  | cons j t ih =>
    intro i h
    rw [List.filter_cons] at h
    by_cases hm : matchesSpec spec (devAt w j).full_name = true
    · simp only [hm, if_true] at h
      simp only [List.cons.injEq] at h
      obtain ⟨hji, ht⟩ := h
      simp only [findLoop, hm, if_true]
      rw [findLoop_no_match w spec t (some j) ht, hji]
    · simp only [hm, if_false, Bool.false_eq_true, reduceIte] at h
      simp only [findLoop, hm, if_false]
      exact ih i h

theorem append_ne_of_length_lt (a s b : String) (h : b.length < a.length) :
    a ++ s ≠ b := by
  intro heq
  have hle := congrArg String.length heq
  rw [String.length_append] at hle
  omega

theorem skip_beq_in (s : String) :
    (("Skipping" : String) == ("Can\x27t find an input device matching: " ++ s)) = false :=
  beq_eq_false_iff_ne.2
    (Ne.symm (append_ne_of_length_lt _ s "Skipping" (by decide)))

theorem skip_beq_out (s : String) :
    (("Skipping" : String)
      == ("Can\x27t find an output device matching output: " ++ s)) = false :=
  beq_eq_false_iff_ne.2
    (Ne.symm (append_ne_of_length_lt _ s "Skipping" (by decide)))

theorem in_beq_skip (s : String) :
    ((("Can\x27t find an input device matching: " ++ s) : String) == "Skipping") = false :=
  beq_eq_false_iff_ne.2 (append_ne_of_length_lt _ s "Skipping" (by decide))

theorem out_beq_skip (s : String) :
    ((("Can\x27t find an output device matching output: " ++ s) : String) == "Skipping") = false :=
  beq_eq_false_iff_ne.2 (append_ne_of_length_lt _ s "Skipping" (by decide))

theorem filter_length_names (w : World) (spec : NameSpec) (ids : List Nat) :
    (ids.filter (fun i => matchesSpec spec (devAt w i).full_name)).length
      = countMatches spec (ids.map (fun i => (devAt w i).full_name)) := by
  rw [countMatches, List.filter_map, List.length_map]
  rfl

theorem registerRoutes_world :
    ∀ (wl : List (Nat × Nat × ChannelSpec)) (w : World) (st st' : Station),
    (registerRoutes w st wl).1 = (registerRoutes w st' wl).1 := by
  intro wl
  induction wl with
  | nil => intro w st st'; rfl
  | cons r rest ih =>
    intro w st st'
    obtain ⟨i, o, ch⟩ := r
    exact ih (forwardMessages w i o ch) _ _

theorem registerRoutes_inputs :
    ∀ (wl : List (Nat × Nat × ChannelSpec)) (w : World) (st : Station),
    ((registerRoutes w st wl).2).input_devices
      = st.input_devices ++ wl.map (fun r => r.1) := by
  intro wl
  induction wl with
  | nil => intro w st; simp [registerRoutes]
  | cons r rest ih =>
    intro w st
    obtain ⟨i, o, ch⟩ := r
    show ((registerRoutes _ _ rest).2).input_devices = _
    rw [ih]
    simp

theorem registerRoutes_outputs :
    ∀ (wl : List (Nat × Nat × ChannelSpec)) (w : World) (st : Station),
    ((registerRoutes w st wl).2).output_devices
      = st.output_devices ++ wl.map (fun r => r.2.1) := by
  intro wl
  induction wl with
  | nil => intro w st; simp [registerRoutes]
  | cons r rest ih =>
    intro w st
    obtain ⟨i, o, ch⟩ := r
    show ((registerRoutes _ _ rest).2).output_devices = _
    rw [ih]
    simp

theorem matchRules_char (w : World) (inIds outIds : List Nat)
    (inNames outNames : List String)
    (hin : inIds.map (fun i => (devAt w i).full_name) = inNames)
    (hout : outIds.map (fun i => (devAt w i).full_name) = outNames) :
    ∀ rules : List WiringRule,
    (∀ r ∈ rules, countMatches r.1 inNames ≤ 1 ∧ countMatches r.2.2 outNames ≤ 1) →
    ∃ wl,
      (matchRules w inIds outIds rules).2 = .ok wl ∧
      (matchRules w inIds outIds (rules.filter (fun r =>
        countMatches r.1 inNames == 1 && countMatches r.2.2 outNames == 1))).2 = .ok wl ∧
      (matchRules w inIds outIds (rules.filter (fun r =>
        countMatches r.1 inNames == 1 && countMatches r.2.2 outNames == 1))).1 = [] ∧
      (matchRules w inIds outIds rules).1.count "Skipping"
        + (rules.filter (fun r =>
            countMatches r.1 inNames == 1 && countMatches r.2.2 outNames == 1)).length
        = rules.length := by
  intro rules
  induction rules with
  | nil => intro _; exact ⟨[], rfl, rfl, rfl, rfl⟩
  | cons r rest ih =>
    intro hb
    obtain ⟨ispec, chs, ospec⟩ := r
    have hr1 : countMatches ispec inNames ≤ 1 :=
      (hb (ispec, chs, ospec) (List.mem_cons_self _ _)).1
    have hr2 : countMatches ospec outNames ≤ 1 :=
      (hb (ispec, chs, ospec) (List.mem_cons_self _ _)).2
    obtain ⟨wl, h1, h2, h3, h4⟩ := ih (fun r hmem => hb r (List.mem_cons_of_mem _ hmem))
    have hcin : (inIds.filter (fun i => matchesSpec ispec (devAt w i).full_name)).length
        = countMatches ispec inNames := by rw [filter_length_names, hin]
    have hcout : (outIds.filter (fun i => matchesSpec ospec (devAt w i).full_name)).length
        = countMatches ospec outNames := by rw [filter_length_names, hout]
    by_cases hin1 : countMatches ispec inNames = 1
    · obtain ⟨i, hi⟩ := List.length_eq_one.1 (hcin.trans hin1)
      have hfi : findMatchingDevice w ispec inIds = .ok (some i) := findLoop_one w ispec inIds i hi
      by_cases hout1 : countMatches ospec outNames = 1
      · obtain ⟨o, ho⟩ := List.length_eq_one.1 (hcout.trans hout1)
        have hfo : findMatchingDevice w ospec outIds = .ok (some o) :=
          findLoop_one w ospec outIds o ho
        have hfilter : List.filter (fun r : WiringRule =>
            countMatches r.1 inNames == 1 && countMatches r.2.2 outNames == 1)
              ((ispec, chs, ospec) :: rest)
            = (ispec, chs, ospec) :: List.filter (fun r : WiringRule =>
                countMatches r.1 inNames == 1 && countMatches r.2.2 outNames == 1) rest := by
          rw [List.filter_cons]
          simp [hin1, hout1]
        refine ⟨(i, o, chs) :: wl, ?_, ?_, ?_, ?_⟩
        · simp only [matchRules, hfi, hfo]
          rw [h1]
          rfl
        · rw [hfilter]
          simp only [matchRules, hfi, hfo]
          rw [h2]
          rfl
        · rw [hfilter]
          simp only [matchRules, hfi, hfo]
          simp [h3]
        · rw [hfilter]
          simp only [matchRules, hfi, hfo]
          simp only [Option.isNone_some, Bool.false_eq_true, reduceIte,
            List.nil_append, List.length_cons]
          omega
      · have hout0 : countMatches ospec outNames = 0 := by omega
        have hfo : findMatchingDevice w ospec outIds = .ok none :=
          findLoop_no_match w ospec outIds none (List.length_eq_zero.1 (hcout.trans hout0))
        have hfilter : List.filter (fun r : WiringRule =>
            countMatches r.1 inNames == 1 && countMatches r.2.2 outNames == 1)
              ((ispec, chs, ospec) :: rest)
            = List.filter (fun r : WiringRule =>
                countMatches r.1 inNames == 1 && countMatches r.2.2 outNames == 1) rest := by
          rw [List.filter_cons]
          simp [hout0]
        refine ⟨wl, ?_, ?_, ?_, ?_⟩
        · simp only [matchRules, hfi, hfo]
          exact h1
        · rw [hfilter]; exact h2
        · rw [hfilter]; exact h3
        · rw [hfilter]
          simp only [matchRules, hfi, hfo]
          simp only [Option.isNone_some, Option.isNone_none, Bool.false_eq_true, reduceIte,
            List.nil_append, List.singleton_append, List.cons_append,
            List.count_cons, List.length_cons, skip_beq_out, out_beq_skip, beq_self_eq_true, if_true]
          omega
    · have hin0 : countMatches ispec inNames = 0 := by omega
      have hfi : findMatchingDevice w ispec inIds = .ok none :=
        findLoop_no_match w ispec inIds none (List.length_eq_zero.1 (hcin.trans hin0))
      have hfilter : List.filter (fun r : WiringRule =>
          countMatches r.1 inNames == 1 && countMatches r.2.2 outNames == 1)
            ((ispec, chs, ospec) :: rest)
          = List.filter (fun r : WiringRule =>
              countMatches r.1 inNames == 1 && countMatches r.2.2 outNames == 1) rest := by
        rw [List.filter_cons]
        simp [hin0]
      by_cases hout1 : countMatches ospec outNames = 1
      · obtain ⟨o, ho⟩ := List.length_eq_one.1 (hcout.trans hout1)
        have hfo : findMatchingDevice w ospec outIds = .ok (some o) :=
          findLoop_one w ospec outIds o ho
        refine ⟨wl, ?_, ?_, ?_, ?_⟩
        · simp only [matchRules, hfi, hfo]
          exact h1
        · rw [hfilter]; exact h2
        · rw [hfilter]; exact h3
        · rw [hfilter]
          simp only [matchRules, hfi, hfo]
          simp only [Option.isNone_some, Option.isNone_none, Bool.false_eq_true, reduceIte,
            List.nil_append, List.singleton_append, List.cons_append,
            List.count_cons, List.length_cons, skip_beq_in, in_beq_skip, beq_self_eq_true, if_true]
          omega
      · have hout0 : countMatches ospec outNames = 0 := by omega
        have hfo : findMatchingDevice w ospec outIds = .ok none :=
          findLoop_no_match w ospec outIds none (List.length_eq_zero.1 (hcout.trans hout0))
        refine ⟨wl, ?_, ?_, ?_, ?_⟩
        · simp only [matchRules, hfi, hfo]
          exact h1
        · rw [hfilter]; exact h2
        · rw [hfilter]; exact h3
        · rw [hfilter]
          simp only [matchRules, hfi, hfo]
          simp only [Option.isNone_none, Bool.false_eq_true, reduceIte,
            List.nil_append, List.singleton_append, List.cons_append,
            List.count_cons, List.length_cons, skip_beq_in, skip_beq_out, in_beq_skip, out_beq_skip,
            beq_self_eq_true, if_true]
          omega

/-- C6: when no rule of the wiring is ambiguous, `wire` does not crash: it
returns without error, each rule with an unresolved (zero-match) side is
skipped with a per-rule `Skipping` diagnostic, and every rule that resolves
uniquely on both sides is still applied — the resulting world (heap, opened
connections, trace) and the resulting active device lists are exactly those
of wiring only the uniquely-resolving rules (`goodRules`), which themselves
produce no diagnostics. -/
theorem c6_wire_skips_unresolved (env : MidiEnv) (w : World) (st : Station)
    (wiring : Wiring)
    (hnoamb : ∀ r ∈ wiring, countMatches r.1 env.input_ports ≤ 1 ∧
      countMatches r.2.2 env.output_ports ≤ 1) :
    (Station.wire env w st wiring).err = none ∧
    (Station.wire env w st (goodRules env wiring)).err = none ∧
    (Station.wire env w st wiring).world
      = (Station.wire env w st (goodRules env wiring)).world ∧
    (Station.wire env w st wiring).station.input_devices
      = (Station.wire env w st (goodRules env wiring)).station.input_devices ∧
    (Station.wire env w st wiring).station.output_devices
      = (Station.wire env w st (goodRules env wiring)).station.output_devices ∧
    (Station.wire env w st (goodRules env wiring)).diags = [] ∧
    (Station.wire env w st wiring).diags.count "Skipping" + (goodRules env wiring).length
      = wiring.length := by
  have hinlt := discoverFrom_ids_lt env.input_ports w 0
  have hinnames0 := discoverFrom_names env.input_ports w 0
  have houtnames := discoverFrom_names env.output_ports (discoverFrom w 0 env.input_ports).1 0
  have hinnames : (discoverFrom w 0 env.input_ports).2.map
      (fun i => (devAt (discoverFrom (discoverFrom w 0 env.input_ports).1 0
        env.output_ports).1 i).full_name) = env.input_ports := by
    conv_rhs => rw [← hinnames0]
    apply List.map_congr_left
    intro i hmem
    rw [devAt_discoverFrom_old env.output_ports _ 0 i (hinlt i hmem)]
  obtain ⟨wl, h1, h2, h3, h4⟩ := matchRules_char
    (discoverFrom (discoverFrom w 0 env.input_ports).1 0 env.output_ports).1
    (discoverFrom w 0 env.input_ports).2
    (discoverFrom (discoverFrom w 0 env.input_ports).1 0 env.output_ports).2
    env.input_ports env.output_ports hinnames houtnames wiring hnoamb
  refine ⟨?_, ?_, ?_, ?_, ?_, ?_, ?_⟩
  · simp only [Station.wire, discover, h1]
  · simp only [Station.wire, discover, goodRules, h2]
  · simp only [Station.wire, discover, goodRules, h1, h2]
    exact registerRoutes_world wl _ _ _
  · simp only [Station.wire, discover, goodRules, h1, h2]
    rw [registerRoutes_inputs, registerRoutes_inputs]
  · simp only [Station.wire, discover, goodRules, h1, h2]
    rw [registerRoutes_outputs, registerRoutes_outputs]
  · simp only [Station.wire, discover, goodRules, h2, h3]
  · simp only [Station.wire, discover, h1]
    exact h4

/-- Witness for C6: `wiringGhost`'s first rule matches no input (`ghost`),
its second resolves uniquely (`kbd` → `out1`); wire applies exactly the
second rule and emits one skip diagnostic. -/
theorem c6_wire_skips_unresolved_witness :
    (∀ r ∈ wiringGhost, countMatches r.1 envGhost.input_ports ≤ 1 ∧
      countMatches r.2.2 envGhost.output_ports ≤ 1) ∧
    ((Station.wire envGhost w0 st0 wiringGhost).err = none ∧
      (Station.wire envGhost w0 st0 (goodRules envGhost wiringGhost)).err = none ∧
      (Station.wire envGhost w0 st0 wiringGhost).world
        = (Station.wire envGhost w0 st0 (goodRules envGhost wiringGhost)).world ∧
      (Station.wire envGhost w0 st0 wiringGhost).station.input_devices
        = (Station.wire envGhost w0 st0 (goodRules envGhost wiringGhost)).station.input_devices ∧
      (Station.wire envGhost w0 st0 wiringGhost).station.output_devices
        = (Station.wire envGhost w0 st0 (goodRules envGhost wiringGhost)).station.output_devices ∧
      (Station.wire envGhost w0 st0 (goodRules envGhost wiringGhost)).diags = [] ∧
      (Station.wire envGhost w0 st0 wiringGhost).diags.count "Skipping"
        + (goodRules envGhost wiringGhost).length = wiringGhost.length) :=
  ⟨by decide, c6_wire_skips_unresolved envGhost w0 st0 wiringGhost (by decide)⟩

/-! ### Claim C8: rewire -/

/-- C8: `rewire` ignores its argument entirely; when no wiring was ever
recorded it fails with the `NoPriorWiring` error (`ValueError("No wiring
set")`), returning the world and the station unchanged with no diagnostics;
otherwise it performs `reset()` followed by `wire(lastWiring)` with the
remembered wiring, which re-runs discovery inside `wire`. -/
theorem c8_rewire_contract (env : MidiEnv) (w : World) (st : Station) (arg : Wiring) :
    (st.last_wiring = none → Station.rewire env w st arg = ⟨w, st, [], some .noWiring⟩) ∧
    (∀ lw, st.last_wiring = some lw →
      Station.rewire env w st arg
        = Station.wire env (Station.reset w st).1 (Station.reset w st).2 lw) ∧
    (∀ arg2, Station.rewire env w st arg = Station.rewire env w st arg2) := by
  refine ⟨?_, ?_, ?_⟩
  · intro h
    simp [Station.rewire, h]
  · intro lw h
    simp [Station.rewire, h]
  · intro arg2
    rfl

/-- Witness for C8: with no recorded wiring `rewire` fails with
`NoPriorWiring` and changes nothing; with a recorded wiring it equals
`reset` followed by `wire` of the remembered wiring, whatever argument was
passed. -/
theorem c8_rewire_contract_witness :
    Station.rewire envGhost w0 st0 wiringGhost = ⟨w0, st0, [], some .noWiring⟩ ∧
    Station.rewire envGhost w0 stPrev wiringGhost
      = Station.wire envGhost (Station.reset w0 stPrev).1 (Station.reset w0 stPrev).2
          [(.str "kbd", .all_channels, .str "out1")] ∧
    Station.rewire envGhost w0 stPrev wiringGhost = Station.rewire envGhost w0 stPrev [] :=
  ⟨(c8_rewire_contract envGhost w0 st0 wiringGhost).1 rfl,
   (c8_rewire_contract envGhost w0 stPrev wiringGhost).2.1 _ rfl,
   (c8_rewire_contract envGhost w0 stPrev wiringGhost).2.2 []⟩

/-! ### Claim C9: panic -/

theorem panicGo_devices :
    ∀ (names : List String) (w : World) (p : Nat),
    (panicGo w p names).devices = w.devices := by
  intro names
  induction names with
  | nil => intro w p; rfl
  | cons n rest ih =>
    intro w p
    show (panicGo _ (p + 1) rest).devices = w.devices
    rw [ih]

theorem panicGo_nextConn :
    ∀ (names : List String) (w : World) (p : Nat),
    (panicGo w p names).nextConn = w.nextConn + names.length := by
  intro names
  induction names with
  | nil => intro w p; rfl
  | cons n rest ih =>
    intro w p
    show (panicGo _ (p + 1) rest).nextConn = w.nextConn + (rest.length + 1)
    rw [ih]
    show w.nextConn + 1 + rest.length = w.nextConn + (rest.length + 1)
    omega

theorem panicGo_trace :
    ∀ (names : List String) (w : World) (p : Nat),
    (panicGo w p names).trace = w.trace ++ panicSweep w.nextConn p names.length := by
  intro names
  induction names with
  | nil => intro w p; simp [panicGo, panicSweep]
  | cons n rest ih =>
    intro w p
    show (panicGo _ (p + 1) rest).trace = _
    rw [ih]
    show (w.trace ++ [Event.openOut w.nextConn p, Event.send w.nextConn soundOffMsg,
        Event.send w.nextConn notesOffMsg, Event.send w.nextConn resetCtrlMsg,
        Event.closeOut w.nextConn]) ++ panicSweep (w.nextConn + 1) (p + 1) rest.length
      = w.trace ++ panicSweep w.nextConn p (rest.length + 1)
    rw [panicSweep, List.append_assoc]
    rfl

/-- C9: `panic` opens every currently discoverable output port in turn —
whether or not that port belongs to an active device — sends it the
three-message silence sequence and closes it again (`panicSweep`), and
changes nothing else: the station object (active input list, active output
list, remembered wiring) is returned untouched, the device heap is
untouched, and the resulting world does not depend on the station at all. -/
theorem c9_panic_sweeps_all_ports (env : MidiEnv) (w : World) (st st2 : Station) :
    (Station.panic env w st).2 = st ∧
    (Station.panic env w st).1.devices = w.devices ∧
    (Station.panic env w st).1.nextConn = w.nextConn + env.output_ports.length ∧
    (Station.panic env w st).1.trace
      = w.trace ++ panicSweep w.nextConn 0 env.output_ports.length ∧
    (Station.panic env w st).1 = (Station.panic env w st2).1 := by
  refine ⟨rfl, ?_, ?_, ?_, rfl⟩
  · exact panicGo_devices env.output_ports w 0
  · exact panicGo_nextConn env.output_ports w 0
  · exact panicGo_trace env.output_ports w 0
